import Mathlib

/-!
# Verification of the helix-drawer core (src/helix_drawer.py)

Shallow embedding of the helix geometry and batch data-preparation engine:

* `calculate_helix_coordinates` — the parametric double-helix generator
  (`np.linspace` over `[0, 8π]`, radius / vertical-stretch scaling),
  including its behaviour on non-positive sample counts (`np.linspace`
  raises `ValueError` for a negative sample count and returns an empty
  array for zero);
* an explicit model of `functools.lru_cache(maxsize=128)` as used on
  `calculate_helix_coordinates` (recency list of keys, capacity 128);
* `parse_ancestry_dna` — `np.genfromtxt(file, delimiter='\t', dtype=str,
  comments='#')[:, :4]`: comment stripping at `#`, line stripping of
  spaces/CR/LF, blank-line skipping, tab splitting, the uniform
  column-count requirement of `genfromtxt`, the squeeze of unit axes
  (which makes `[:, :4]` raise `IndexError` on single-row and
  single-column tables), and otherwise the clamping `[:, :4]` column
  projection;
* `process_dna_batch` — per-record base-symbol resolution with the
  `'A'`/`'T'` fallbacks for short genotype strings;
* the colour lookup `BASE_COLORS_2D`/`BASE_COLORS_3D[base]` (a Python
  `dict` lookup whose `KeyError` carries the missing key);
* `generate_3d_helix` — the offscreen 3-D pipeline (backbone point lists,
  sphere primitives built by zipping coordinates with colours in
  `create_batch_spheres`, per-pair connector segments);
* `generate_3dmol_helix` — the interactive-viewer pipeline, which indexes
  `dna_data[i][3][0]` directly.

Python strings are modelled as `List Char`, rows of the parsed genotype
table as `List (List Char)`, floating-point values as real numbers, and
raised exceptions as `Except PyErr`.
-/

namespace HelixDrawer

open Real

/-- Python exception kinds that the modelled code can raise:
`OSError` (unreadable file), `ValueError` (from `np.genfromtxt` /
`np.linspace`), `IndexError` (out-of-range indexing), and `KeyError`
(failed `dict` lookup, carrying the missing key — and nothing else). -/
inductive PyErr where
  | osError : PyErr
  | valueError : PyErr
  | indexError : PyErr
  | keyError : Char → PyErr
  deriving DecidableEq, Repr

/-! ## DNAConfig constants -/

def RADIUS : ℝ := 4

def VERTICAL_STRETCH : ℝ := 4

/-- The dict `DNAConfig.BASE_COLORS_2D`, as an association list (the Python dict
has distinct keys, so first-match lookup agrees with dict lookup). -/
def BASE_COLORS_2D : List (Char × String) :=
  [('A', "red"), ('T', "blue"), ('C', "green"), ('G', "yellow")]

/-- The dict `DNAConfig.BASE_COLORS_3D`. -/
def BASE_COLORS_3D : List (Char × String) :=
  [('A', "#FF0000"), ('T', "#0000FF"), ('C', "#00FF00"), ('G', "#FFFF00")]

/-! ## The helix geometry calculator -/

/-- Model of `np.linspace a b n`: `n` evenly spaced samples over `[a, b]`,
endpoints included.  For `n = 1` numpy returns `[a]`; for `n = 0` the
empty array. -/
noncomputable def linspace (a b : ℝ) (n : ℕ) : List ℝ :=
  if n = 1 then [a]
  else (List.range n).map fun i : ℕ => a + (b - a) * (i : ℝ) / ((n : ℝ) - 1)

/-- The body of `calculate_helix_coordinates` for a non-negative number
of base pairs: one row of the `(base_pairs, 6)` array per sample `t`,
columns `(R·cos t, R·sin t, S·t, R·cos (t+π), R·sin (t+π), S·t)`. -/
noncomputable def calculate_helix_coordinates_raw (base_pairs : ℕ) :
    List (ℝ × ℝ × ℝ × ℝ × ℝ × ℝ) :=
  (linspace 0 (8 * π) base_pairs).map fun t =>
    (RADIUS * Real.cos t, RADIUS * Real.sin t, VERTICAL_STRETCH * t,
     RADIUS * Real.cos (t + π), RADIUS * Real.sin (t + π), VERTICAL_STRETCH * t)

/-- Model of `calculate_helix_coordinates` on an arbitrary integer argument.
There is no explicit argument validation in the source: `np.linspace`
raises `ValueError` when the sample count is negative, and returns an
empty array (hence an empty coordinate table) when it is zero. -/
noncomputable def calculate_helix_coordinates (base_pairs : ℤ) :
    Except PyErr (List (ℝ × ℝ × ℝ × ℝ × ℝ × ℝ)) :=
  if base_pairs < 0 then .error .valueError
  else .ok (calculate_helix_coordinates_raw base_pairs.toNat)

/-- Strand A of the helix: columns `0..2` of the coordinate array
(`coords[:, :3]`, the `points1` of the renderers). -/
noncomputable def strandA (base_pairs : ℕ) : List (ℝ × ℝ × ℝ) :=
  (calculate_helix_coordinates_raw base_pairs).map fun p => (p.1, p.2.1, p.2.2.1)

/-- Strand B of the helix: columns `3..5` of the coordinate array
(`coords[:, 3:]`, the `points2` of the renderers). -/
noncomputable def strandB (base_pairs : ℕ) : List (ℝ × ℝ × ℝ) :=
  (calculate_helix_coordinates_raw base_pairs).map fun p => (p.2.2.2.1, p.2.2.2.2.1, p.2.2.2.2.2)

/-! ## The `functools.lru_cache(maxsize=128)` wrapper

`calculate_helix_coordinates` is decorated with `@lru_cache(maxsize=128)`.
The cached value for a key is always `calculate_helix_coordinates` of that
key (the function is pure), so the cache is modelled by its recency list
of keys alone, most recently used first.  A hit moves the key to the
front; a miss on a non-negative key computes, inserts at the front and
drops the least recently used key once more than 128 are present; a miss
on a negative key raises inside the computation, and `lru_cache` caches
nothing for it. -/

/-- One call of the cached function: returns whether the call was served
from the cache (no recomputation) and the new recency list. -/
def lruStep (cache : List ℤ) (k : ℤ) : Bool × List ℤ :=
  if k ∈ cache then (true, k :: cache.erase k)
  else if k < 0 then (false, cache)
  else (false, (k :: cache).take 128)

/-- A sequence of calls of the cached function, returning the final
recency list. -/
def lruRun (cache : List ℤ) (ks : List ℤ) : List ℤ :=
  ks.foldl (fun c k => (lruStep c k).2) cache

/-! ## The parser: `parse_ancestry_dna`

`np.genfromtxt(file_path, delimiter='\t', dtype=str, comments='#')`
processes each line by discarding everything from the first `#` on,
stripping spaces / carriage returns / newlines from both ends, skipping
the line if nothing remains, and splitting the rest on tabs.  The column
count of the first surviving row fixes the table width; any later row
with a different count makes `genfromtxt` raise `ValueError`.  Before
returning, `genfromtxt` squeezes unit axes of its result
(`np.squeeze`): a single surviving row or a single-column table comes
back as a 1-D (for one row of one field, 0-D) array, on which the
source's projection `data[:, :4]` raises `IndexError`.  On a 2-D result
`data[:, :4]` clamps to the available columns.  A file is a list of
lines; an unreadable file is `none` (Python raises `OSError`).  The
no-surviving-row path (whose handling inside `genfromtxt` differs
across numpy versions) is left as an unconstrained `.ok []` and kept
outside every theorem's scope, which always requires at least two
surviving rows. -/

/-- Characters stripped from line ends by `genfromtxt`'s line splitter
(Python `line.strip(" \r\n")` — note tabs are kept). -/
def isStripChar (c : Char) : Bool :=
  c == ' ' || c == '\r' || c == '\n'

/-- Discard the comment part (everything from the first `#`) and strip
spaces/CR/LF from both ends. -/
def cleanLine (line : List Char) : List Char :=
  (((line.takeWhile (fun c => c ≠ '#')).dropWhile isStripChar).reverse.dropWhile
    isStripChar).reverse

/-- Model of Python `str.split('\t')`: split into fields at every tab.  The empty
string yields one empty field, matching `''.split('\t') == ['']`. -/
def splitTab : List Char → List (List Char)
  | [] => [[]]
  | c :: rest =>
      if c = '\t' then [] :: splitTab rest
      else
        match splitTab rest with
        | f :: fs => (c :: f) :: fs
        | [] => [[c]]

/-- The surviving data rows of a file: lines cleaned, blank lines
dropped, remaining lines split at tabs. -/
def rawRows (lines : List (List Char)) : List (List (List Char)) :=
  ((lines.map cleanLine).filter (fun l => l ≠ [])).map splitTab

/-- Model of `parse_ancestry_dna`: read the file with `genfromtxt` and project to
the first four columns.  `none` models an unreadable file.  A uniform
table with a unit axis — a single surviving row (`rs = []`) or a single
column (`r.length = 1`) — is squeezed to less than two dimensions by
`genfromtxt`, so `data[:, :4]` raises `IndexError`. -/
def parse_ancestry_dna (file : Option (List (List Char))) :
    Except PyErr (List (List (List Char))) :=
  match file with
  | none => .error .osError
  | some lines =>
      match rawRows lines with
      | [] => .ok []
      | r :: rs =>
          if rs.all (fun x => x.length == r.length) then
            if rs.length == 0 || r.length == 1 then .error .indexError
            else .ok ((r :: rs).map (fun row => row.take 4))
          else .error .valueError

/-! ## The batch attribute resolver: `process_dna_batch` -/

/-- Model of `process_dna_batch`: `entry[3]` extracts each record's genotype
(raising `IndexError` on a row with fewer than four fields), then
`g[0] if len(g) > 0 else 'A'` and `g[1] if len(g) > 1 else 'T'` resolve
the two strand symbols. -/
def process_dna_batch (batch_data : List (List (List Char))) :
    Except PyErr (List Char × List Char) :=
  match batch_data.mapM fun entry =>
      match entry[3]? with
      | some g => Except.ok g
      | none => Except.error PyErr.indexError with
  | .error e => .error e
  | .ok genotypes =>
      .ok (genotypes.map (fun g => g.getD 0 'A'), genotypes.map (fun g => g.getD 1 'T'))

/-! ## Colour lookup and the render pipelines -/

/-- One Python dict lookup `colors[base]`: `KeyError` carries the missing
key (and only the key — a `KeyError` holds no positional information). -/
def lookupColor (colors : List (Char × String)) (base : Char) : Except PyErr String :=
  match colors.lookup base with
  | some c => .ok c
  | none => .error (.keyError base)

/-- The list comprehension `[colors[base] for base in bases]` used by both
`generate_dna_helix` and `generate_3d_helix`: it stops at the first
missing symbol, raising its `KeyError`. -/
def lookupColors (colors : List (Char × String)) (bases : List Char) :
    Except PyErr (List String) :=
  bases.mapM (lookupColor colors)

/-- Model of `create_batch_spheres`: one sphere per `(coord, color)` pair produced
by `zip(coordinates, colors)` — `zip` truncates to the shorter input. -/
def create_batch_spheres (coordinates : List (ℝ × ℝ × ℝ)) (colors : List String) :
    List ((ℝ × ℝ × ℝ) × String) :=
  coordinates.zip colors

/-- The geometry handed to the offscreen 3-D renderer by
`generate_3d_helix`: backbone point lists, coloured sphere primitives per
strand, and per-pair connector segments. -/
structure Scene3D where
  backbone1 : List (ℝ × ℝ × ℝ)
  backbone2 : List (ℝ × ℝ × ℝ)
  spheres1 : List ((ℝ × ℝ × ℝ) × String)
  spheres2 : List ((ℝ × ℝ × ℝ) × String)
  connectors : List ((ℝ × ℝ × ℝ) × (ℝ × ℝ × ℝ))

/-- Model of `generate_3d_helix` up to the plotting side effects: coordinates for
`base_pairs` samples, symbols from the first `base_pairs` records
(`dna_data[:base_pairs]`), colours via `BASE_COLORS_3D`, spheres by
zipping, and `base_pairs` connector lines `points1[i] -- points2[i]`. -/
noncomputable def generate_3d_helix (dna_data : List (List (List Char)))
    (base_pairs : ℕ) : Except PyErr Scene3D :=
  match process_dna_batch (dna_data.take base_pairs) with
  | .error e => .error e
  | .ok (bases1, bases2) =>
      match lookupColors BASE_COLORS_3D bases1 with
      | .error e => .error e
      | .ok colors1 =>
          match lookupColors BASE_COLORS_3D bases2 with
          | .error e => .error e
          | .ok colors2 =>
              .ok
                { backbone1 := strandA base_pairs
                  backbone2 := strandB base_pairs
                  spheres1 := create_batch_spheres (strandA base_pairs) colors1
                  spheres2 := create_batch_spheres (strandB base_pairs) colors2
                  connectors := (List.range base_pairs).map fun i =>
                    ((strandA base_pairs).getD i (0, 0, 0),
                     (strandB base_pairs).getD i (0, 0, 0)) }

/-- The sphere built by one iteration of the loop in
`generate_3dmol_helix`: centre `coords[i, 0..2]` (strand A only) and
colour `BASE_COLORS_3D[dna_data[i][3][0]]` — the genotype's first
character is indexed directly, so a missing record, a short row, or an
empty genotype string raises `IndexError`. -/
noncomputable def sphere3dmol (dna_data : List (List (List Char)))
    (base_pairs : ℕ) (i : ℕ) : Except PyErr ((ℝ × ℝ × ℝ) × String) :=
  match dna_data[i]? with
  | none => .error .indexError
  | some entry =>
      match entry[3]? with
      | none => .error .indexError
      | some g =>
          match g[0]? with
          | none => .error .indexError
          | some c =>
              match lookupColor BASE_COLORS_3D c with
              | .error e => .error e
              | .ok color => .ok ((strandA base_pairs).getD i (0, 0, 0), color)

/-- Model of `generate_3dmol_helix` up to the viewer side effects: the loop
`for i in range(base_pairs)` adds one sphere per index, stopping at the
first raised exception. -/
noncomputable def generate_3dmol_helix (dna_data : List (List (List Char)))
    (base_pairs : ℕ) : Except PyErr (List ((ℝ × ℝ × ℝ) × String)) :=
  (List.range base_pairs).mapM (sphere3dmol dna_data base_pairs)

/-! ## Helper lemmas about the geometry -/

theorem linspace_length (a b : ℝ) (n : ℕ) : (linspace a b n).length = n := by
  unfold linspace
  split
  · simp [*]
  · rw [List.length_map, List.length_range]

theorem linspace_getElem? (a b : ℝ) {n i : ℕ} (h : i < n) :
    (linspace a b n)[i]? = some (a + (b - a) * i / ((n : ℝ) - 1)) := by
  unfold linspace
  split
  · rename_i hn
    subst hn
    interval_cases i
    norm_num
  · rw [List.getElem?_map, List.getElem?_range h, Option.map_some']

theorem strandA_length (n : ℕ) : (strandA n).length = n := by
  simp [strandA, calculate_helix_coordinates_raw, linspace_length]

theorem strandB_length (n : ℕ) : (strandB n).length = n := by
  simp [strandB, calculate_helix_coordinates_raw, linspace_length]

theorem strandA_getElem? {n i : ℕ} (h : i < n) :
    (strandA n)[i]? =
      some (RADIUS * Real.cos (8 * π * i / ((n : ℝ) - 1)),
            RADIUS * Real.sin (8 * π * i / ((n : ℝ) - 1)),
            VERTICAL_STRETCH * (8 * π * i / ((n : ℝ) - 1))) := by
  have ht := linspace_getElem? 0 (8 * π) h
  simp only [strandA, calculate_helix_coordinates_raw, List.getElem?_map, ht,
    Option.map_some']
  ring_nf

theorem strandB_getElem? {n i : ℕ} (h : i < n) :
    (strandB n)[i]? =
      some (RADIUS * Real.cos (8 * π * i / ((n : ℝ) - 1) + π),
            RADIUS * Real.sin (8 * π * i / ((n : ℝ) - 1) + π),
            VERTICAL_STRETCH * (8 * π * i / ((n : ℝ) - 1))) := by
  have ht := linspace_getElem? 0 (8 * π) h
  simp only [strandB, calculate_helix_coordinates_raw, List.getElem?_map, ht,
    Option.map_some']
  ring_nf

/-! ## Claim theorems -/

/-- C1.  For every positive integer `base_pairs = n`, the coordinate
generator samples `t` at `n` evenly spaced points over `[0, 8π]`
(`t i = 8π·i/(n−1)`, endpoints included; the single sample for `n = 1`
is `t = 0`, matching `np.linspace`, and `8π·0/(1−1) = 0` under the
division-by-zero convention) and returns two index-aligned strands of
`n` points each, with strand A at `(R·cos t, R·sin t, S·t)` and strand B
at `(R·cos (t+π), R·sin (t+π), S·t)` for `R = RADIUS` and
`S = VERTICAL_STRETCH`. -/
theorem helix_sampling_spec (n : ℕ) (_hn : 0 < n) :
    (strandA n).length = n ∧ (strandB n).length = n ∧
    ∀ i, i < n →
      (strandA n)[i]? =
        some (RADIUS * Real.cos (8 * π * i / ((n : ℝ) - 1)),
              RADIUS * Real.sin (8 * π * i / ((n : ℝ) - 1)),
              VERTICAL_STRETCH * (8 * π * i / ((n : ℝ) - 1))) ∧
      (strandB n)[i]? =
        some (RADIUS * Real.cos (8 * π * i / ((n : ℝ) - 1) + π),
              RADIUS * Real.sin (8 * π * i / ((n : ℝ) - 1) + π),
              VERTICAL_STRETCH * (8 * π * i / ((n : ℝ) - 1))) :=
  ⟨strandA_length n, strandB_length n, fun _ hi => ⟨strandA_getElem? hi, strandB_getElem? hi⟩⟩

/-- C1 witness: the theorem instantiated at `n = 2`. -/
theorem helix_sampling_spec_witness :
    0 < 2 ∧
    ((strandA 2).length = 2 ∧ (strandB 2).length = 2 ∧
     ∀ i : ℕ, i < 2 →
       (strandA 2)[i]? =
         some (RADIUS * Real.cos (8 * π * i / ((2 : ℕ) - 1 : ℝ)),
               RADIUS * Real.sin (8 * π * i / ((2 : ℕ) - 1 : ℝ)),
               VERTICAL_STRETCH * (8 * π * i / ((2 : ℕ) - 1 : ℝ))) ∧
       (strandB 2)[i]? =
         some (RADIUS * Real.cos (8 * π * i / ((2 : ℕ) - 1 : ℝ) + π),
               RADIUS * Real.sin (8 * π * i / ((2 : ℕ) - 1 : ℝ) + π),
               VERTICAL_STRETCH * (8 * π * i / ((2 : ℕ) - 1 : ℝ)))) :=
  ⟨by norm_num, helix_sampling_spec 2 (by norm_num)⟩

/-- C4 counterexample: called with `base_pairs = 0` the generator does
not fail at all — `np.linspace(0, 8π, 0)` is empty, so it returns an
empty coordinate table, refuting "fails whenever `base_pairs <= 0`". -/
theorem helix_zero_no_error : calculate_helix_coordinates 0 = .ok [] := by
  simp [calculate_helix_coordinates, calculate_helix_coordinates_raw, linspace]

/-- C4 amended: the generator performs no validation of its own; for
`base_pairs < 0` it fails (with `ValueError` raised by `np.linspace`,
there is no dedicated `InvalidArgument`), while `base_pairs = 0`
succeeds with an empty coordinate set. -/
theorem helix_validation_spec :
    (∀ n : ℤ, n < 0 → calculate_helix_coordinates n = .error .valueError) ∧
    calculate_helix_coordinates 0 = .ok [] := by
  constructor
  · intro n hn
    simp [calculate_helix_coordinates, hn]
  · simp [calculate_helix_coordinates, calculate_helix_coordinates_raw, linspace]

/-- C4 witness: the amended theorem instantiated at `base_pairs = -1`. -/
theorem helix_validation_spec_witness :
    (-1 : ℤ) < 0 ∧ calculate_helix_coordinates (-1) = .error .valueError :=
  ⟨by norm_num, helix_validation_spec.1 (-1) (by norm_num)⟩

/-- C6.  At every index, the strand-B point is the strand-A point
rotated by `π` about the helix axis at the same height: the `x` and `y`
components are negated and the `z` component is unchanged (stated for
all indices: out-of-range lookups are `none` on both sides). -/
theorem strandB_rotation_of_strandA (n i : ℕ) :
    (strandB n)[i]? = ((strandA n)[i]?).map fun p => (-p.1, -p.2.1, p.2.2) := by
  by_cases h : i < n
  · rw [strandA_getElem? h, strandB_getElem? h]
    simp only [Option.map_some', Option.some.injEq, Prod.mk.injEq]
    refine ⟨?_, ?_, trivial⟩
    · rw [Real.cos_add, Real.cos_pi, Real.sin_pi]
      ring
    · rw [Real.sin_add, Real.cos_pi, Real.sin_pi]
      ring
  · have hA : (strandA n)[i]? = none := by
      simp [List.getElem?_eq_none_iff, strandA_length n, Nat.le_of_not_lt h]
    have hB : (strandB n)[i]? = none := by
      simp [List.getElem?_eq_none_iff, strandB_length n, Nat.le_of_not_lt h]
    simp [hA, hB]

/-! ## Helper lemmas about the batch resolver -/

theorem getD_zero_eq_headD (l : List Char) (d : Char) : l.getD 0 d = l.headD d := by
  cases l <;> rfl

theorem getD_one_eq_drop_headD (l : List Char) (d : Char) :
    l.getD 1 d = (l.drop 1).headD d := by
  match l with
  | [] => rfl
  | c :: t => cases t <;> rfl

theorem mapM_get3_ok (batch : List (List (List Char)))
    (h : ∀ e ∈ batch, 3 < e.length) :
    (batch.mapM fun entry =>
        match entry[3]? with
        | some g => Except.ok g
        | none => Except.error PyErr.indexError) =
      Except.ok (batch.map fun e => e.getD 3 []) := by
  induction batch with
  | nil => rfl
  | cons e t ih =>
    have he : 3 < e.length := h e (by simp)
    have hsome : e[3]? = some (e.getD 3 []) := by
      rw [List.getD_eq_getElem?_getD, List.getElem?_eq_getElem he]
      rfl
    rw [List.mapM_cons, hsome, ih fun x hx => h x (by simp [hx])]
    rfl

/-- C2.  On any batch whose rows all have a genotype column, the
resolver succeeds and returns two sequences index-aligned with the
input: per record, the strand-A symbol is the first character of the
genotype if the string is non-empty and `'A'` otherwise, and the
strand-B symbol is the second character (the head of `drop 1`) if the
string has length at least 2 and `'T'` otherwise; and the empty batch
resolves to a pair of empty sequences. -/
theorem process_dna_batch_spec :
    (∀ batch_data : List (List (List Char)), (∀ e ∈ batch_data, 3 < e.length) →
       process_dna_batch batch_data =
         .ok (batch_data.map fun e => (e.getD 3 []).headD 'A',
              batch_data.map fun e => ((e.getD 3 []).drop 1).headD 'T')) ∧
    process_dna_batch [] = .ok ([], []) := by
  constructor
  · intro batch_data h
    unfold process_dna_batch
    rw [mapM_get3_ok batch_data h]
    show Except.ok
        ((batch_data.map fun e => e.getD 3 []).map fun g => g.getD 0 'A',
         (batch_data.map fun e => e.getD 3 []).map fun g => g.getD 1 'T') = _
    simp [List.map_map, Function.comp_def, getD_zero_eq_headD, getD_one_eq_drop_headD,
      List.head?_eq_getElem?]
  · rfl

/-- C2 witness: the single record `rs1 / 1 / 100 / AG` resolves to
strand-A symbol `'A'` and strand-B symbol `'G'`. -/
theorem process_dna_batch_spec_witness :
    (∀ e ∈ [["rs1".toList, "1".toList, "100".toList, "AG".toList]],
       3 < e.length) ∧
    process_dna_batch [["rs1".toList, "1".toList, "100".toList, "AG".toList]] =
      .ok (['A'], ['G']) := by
  refine ⟨by decide, ?_⟩
  rw [process_dna_batch_spec.1 _ (by decide)]
  rfl

/-! ## The LRU invariant: a key stays cached while fewer than 128
distinct other keys intervene -/

/-- The key `k` is in the cache with only keys drawn from `D` more
recently used than it. -/
def LruInv (c : List ℤ) (k : ℤ) (D : Finset ℤ) : Prop :=
  ∃ pre suf, c = pre ++ k :: suf ∧ pre.Nodup ∧ k ∉ pre ∧ ∀ x ∈ pre, x ∈ D

theorem take128_cons (a : ℤ) (l : List ℤ) : (a :: l).take 128 = a :: l.take 127 := by
  rw [show (128 : ℕ) = 127 + 1 by norm_num, List.take_succ_cons]

theorem lruInv_init (c₀ : List ℤ) (k : ℤ) (hk : 0 ≤ k) (D : Finset ℤ) :
    LruInv ((lruStep c₀ k).2) k D := by
  unfold lruStep
  by_cases hc : k ∈ c₀
  · rw [if_pos hc]
    exact ⟨[], c₀.erase k, rfl, List.nodup_nil, by simp, by simp⟩
  · rw [if_neg hc, if_neg (not_lt.mpr hk)]
    exact ⟨[], c₀.take 127, take128_cons k c₀, List.nodup_nil, by simp, by simp⟩

theorem lruInv_step (pre suf : List ℤ) (k j : ℤ) (D : Finset ℤ)
    (hnd : pre.Nodup) (hkp : k ∉ pre) (hpD : ∀ x ∈ pre, x ∈ D)
    (hj : j ∈ D) (hcard : D.card ≤ 127) :
    LruInv ((lruStep (pre ++ k :: suf) j).2) k D := by
  by_cases hjc : j ∈ pre ++ k :: suf
  · simp only [lruStep, if_pos hjc]
    by_cases hjk : j = k
    · subst hjk
      rw [List.erase_append_right _ hkp, List.erase_cons_head]
      exact ⟨[], pre ++ suf, rfl, List.nodup_nil, by simp, by simp⟩
    · by_cases hjp : j ∈ pre
      · rw [List.erase_append_left _ hjp]
        refine ⟨j :: pre.erase j, suf, by simp, ?_, ?_, ?_⟩
        · exact List.nodup_cons.mpr
            ⟨fun hmem => absurd rfl ((hnd.mem_erase_iff.mp hmem).1), hnd.erase j⟩
        · intro hmem
          rcases List.mem_cons.mp hmem with h | h
          · exact hjk h.symm
          · exact hkp (List.erase_subset _ _ h)
        · intro x hx
          rcases List.mem_cons.mp hx with h | h
          · exact h ▸ hj
          · exact hpD x (List.erase_subset _ _ h)
      · have hjs : j ∈ suf := by
          rcases List.mem_append.mp hjc with h | h
          · exact absurd h hjp
          · rcases List.mem_cons.mp h with h | h
            · exact absurd h hjk
            · exact h
        have hbeq : ¬(k == j) = true := by
          simp only [beq_iff_eq]
          exact fun h => hjk h.symm
        rw [List.erase_append_right _ hjp, List.erase_cons_tail hbeq]
        refine ⟨j :: pre, suf.erase j, by simp, List.nodup_cons.mpr ⟨hjp, hnd⟩, ?_, ?_⟩
        · intro hmem
          rcases List.mem_cons.mp hmem with h | h
          · exact hjk h.symm
          · exact hkp h
        · intro x hx
          rcases List.mem_cons.mp hx with h | h
          · exact h ▸ hj
          · exact hpD x h
  · simp only [lruStep, if_neg hjc]
    by_cases hneg : j < 0
    · rw [if_pos hneg]
      exact ⟨pre, suf, rfl, hnd, hkp, hpD⟩
    · rw [if_neg hneg]
      have hjp : j ∉ pre := fun h => hjc (List.mem_append.mpr (Or.inl h))
      have hjk : j ≠ k := fun h => by
        subst h
        exact hjc (List.mem_append_right _ (List.mem_cons_self j suf))
      have hlen : pre.length ≤ 126 := by
        have h1 : pre.toFinset ⊆ D.erase j := by
          intro x hx
          have hxp : x ∈ pre := List.mem_toFinset.mp hx
          exact Finset.mem_erase.mpr ⟨fun he => hjp (he ▸ hxp), hpD x hxp⟩
        have h2 := Finset.card_le_card h1
        rw [List.toFinset_card_of_nodup hnd, Finset.card_erase_of_mem hj] at h2
        omega
      rw [show j :: (pre ++ k :: suf) = (j :: pre) ++ k :: suf from rfl,
        List.take_append_eq_append_take,
        List.take_of_length_le (l := j :: pre) (by simp; omega)]
      obtain ⟨m, hm⟩ : ∃ m, 128 - (j :: pre).length = m + 1 :=
        ⟨128 - (j :: pre).length - 1, by simp; omega⟩
      rw [hm, List.take_succ_cons]
      refine ⟨j :: pre, suf.take m, rfl, List.nodup_cons.mpr ⟨hjp, hnd⟩, ?_, ?_⟩
      · intro hmem
        rcases List.mem_cons.mp hmem with h | h
        · exact hjk h.symm
        · exact hkp h
      · intro x hx
        rcases List.mem_cons.mp hx with h | h
        · exact h ▸ hj
        · exact hpD x h

theorem lruInv_run (k : ℤ) (D : Finset ℤ) (hcard : D.card ≤ 127) :
    ∀ (ks : List ℤ) (c : List ℤ), LruInv c k D → (∀ j ∈ ks, j ∈ D) →
      LruInv (lruRun c ks) k D := by
  intro ks
  induction ks with
  | nil => exact fun c hInv _ => hInv
  | cons j t ih =>
    intro c hInv hks
    obtain ⟨pre, suf, rfl, hnd, hkp, hpD⟩ := hInv
    have hstep := lruInv_step pre suf k j D hnd hkp hpD (hks j (by simp)) hcard
    exact ih _ hstep fun x hx => hks x (by simp [hx])

set_option maxRecDepth 8192 in
/-- C3 counterexample: starting from an empty cache, request `N = 1`,
then 128 distinct other base-pair counts (2 through 129); the second
request for `N = 1` is a cache miss — `lru_cache(maxsize=128)` evicted
it, so the result is recomputed, refuting "no cache eviction ...
regardless of how many distinct base-pair counts are requested between
the two calls". -/
theorem lru_eviction_after_128_distinct :
    (lruStep (lruRun (lruStep [] 1).2 ((List.range 128).map fun i => (i : ℤ) + 2)) 1).1
      = false := by
  decide

/-- C3 amended: the result for a given `base_pairs` value is held in an
LRU cache of capacity 128 (not cached unconditionally for the process
lifetime): after a call with a non-negative key `k`, a second call with
`k` is served from the cache with no recomputation provided the calls
in between use keys drawn from a set of fewer than 128 distinct values;
the returned structure is the cached one, and since the generator is a
pure function it is the same value in either case. -/
theorem lru_hit_within_capacity (c₀ : List ℤ) (k : ℤ) (hk : 0 ≤ k)
    (ks : List ℤ) (D : Finset ℤ) (hks : ∀ j ∈ ks, j ∈ D) (hcard : D.card ≤ 127) :
    (lruStep (lruRun (lruStep c₀ k).2 ks) k).1 = true := by
  obtain ⟨pre, suf, heq, -, -, -⟩ :=
    lruInv_run k D hcard ks _ (lruInv_init c₀ k hk D) hks
  rw [heq]
  simp [lruStep, List.mem_append_right _ (List.mem_cons_self k suf)]

/-- C3 witness: a repeated request for `N = 1` with two distinct
intervening counts is a cache hit. -/
theorem lru_hit_within_capacity_witness :
    (0 : ℤ) ≤ 1 ∧ (∀ j ∈ ([2, 3] : List ℤ), j ∈ ({2, 3} : Finset ℤ)) ∧
    ({2, 3} : Finset ℤ).card ≤ 127 ∧
    (lruStep (lruRun (lruStep [] 1).2 [2, 3]) 1).1 = true :=
  ⟨by norm_num, by decide, by decide,
    lru_hit_within_capacity [] 1 (by norm_num) [2, 3] {2, 3} (by decide) (by decide)⟩

/-! ## Claims about the colour lookup -/

/-- C7 counterexample: a Python `KeyError` carries the missing key and
nothing else.  Looking the unknown symbol `'X'` up from index 0 (batch
`['X']`) and from index 1 (batch `['A', 'X']`) raises the *same*
exception value, so the error cannot name the index of the record the
symbol came from, refuting "the error names both the offending symbol
and the index". -/
theorem keyerror_has_no_index :
    lookupColors BASE_COLORS_2D ['X'] = .error (.keyError 'X') ∧
    lookupColors BASE_COLORS_2D ['A', 'X'] = .error (.keyError 'X') :=
  ⟨rfl, rfl⟩

/-- C7 amended: when a resolved base symbol has no entry in the colour
mapping, the lookup comprehension fails with a `KeyError` naming the
offending symbol (the first unresolvable one) but not its index; the
resolver itself never rejects a symbol (it succeeds on any batch with a
genotype column), so the colour lookup is where out-of-alphabet
characters surface. -/
theorem color_lookup_failure_spec :
    (∀ (colors : List (Char × String)) (pre : List Char) (b : Char) (rest : List Char),
       (∀ c ∈ pre, (List.lookup c colors).isSome) → List.lookup b colors = none →
       lookupColors colors (pre ++ b :: rest) = .error (.keyError b)) ∧
    (∀ batch_data : List (List (List Char)), (∀ e ∈ batch_data, 3 < e.length) →
       ∃ r, process_dna_batch batch_data = Except.ok r) := by
  constructor
  · intro colors pre b rest hpre hb
    induction pre with
    | nil =>
      show (b :: rest).mapM (lookupColor colors) = _
      rw [List.mapM_cons]
      have hlb : lookupColor colors b = .error (.keyError b) := by
        simp [lookupColor, hb]
      rw [hlb]
      rfl
    | cons c t ih =>
      obtain ⟨col, hcol⟩ :=
        Option.isSome_iff_exists.mp (hpre c (List.mem_cons_self c t))
      have hlc : lookupColor colors c = .ok col := by
        simp [lookupColor, hcol]
      show (c :: (t ++ b :: rest)).mapM (lookupColor colors) = _
      rw [List.mapM_cons, hlc,
        show (t ++ b :: rest).mapM (lookupColor colors) =
            Except.error (PyErr.keyError b) from
          ih fun x hx => hpre x (List.mem_cons_of_mem c hx)]
      rfl
  · intro batch_data h
    refine ⟨((batch_data.map fun e => e.getD 3 []).map fun g => g.getD 0 'A',
             (batch_data.map fun e => e.getD 3 []).map fun g => g.getD 1 'T'), ?_⟩
    unfold process_dna_batch
    rw [mapM_get3_ok batch_data h]

/-- C7 witness: with the 2-D palette, looking up the batch
`['A', 'X']` (resolvable `'A'` followed by unknown `'X'`) fails with
the `KeyError` naming `'X'`. -/
theorem color_lookup_failure_spec_witness :
    (∀ c ∈ ['A'], (List.lookup c BASE_COLORS_2D).isSome) ∧
    List.lookup 'X' BASE_COLORS_2D = none ∧
    lookupColors BASE_COLORS_2D (['A'] ++ 'X' :: []) = .error (.keyError 'X') :=
  ⟨by decide, by decide,
    color_lookup_failure_spec.1 BASE_COLORS_2D ['A'] 'X' [] (by decide) (by decide)⟩

/-! ## Claims about the parser -/

/-- The spec's end-to-end sample file: a header comment and three data
rows, the third with a one-character genotype. -/
def sampleFile : List (List Char) :=
  ["#AncestryDNA raw data export".toList,
   "rs1\t1\t100\tAG".toList,
   "rs2\t2\t200\tCT".toList,
   "rs3\tX\t300\tA".toList]

/-- C8 counterexample: a readable two-row file whose rows have five and
four tab-separated fields.  The claim promises one record per row with
extra columns ignored, but `genfromtxt` requires a uniform column count
(fixed by the first row) and raises `ValueError` instead. -/
theorem parse_mixed_columns_error :
    parse_ancestry_dna (some ["a\tb\tc\td\te".toList, "p\tq\tr\ts".toList]) =
      .error .valueError := by
  rfl

/-- Reduction of the parser on a readable file whose surviving rows are
known: the `genfromtxt` uniform-column check against the first row
decides between `ValueError` and a table, and on a table a squeezed
unit axis decides between `IndexError` and the projected records. -/
theorem parse_some_cons (lines : List (List Char)) (r : List (List Char))
    (rs : List (List (List Char))) (h : rawRows lines = r :: rs) :
    parse_ancestry_dna (some lines) =
      if (rs.all fun x => x.length == r.length) = true then
        if (rs.length == 0 || r.length == 1) = true then Except.error PyErr.indexError
        else Except.ok ((r :: rs).map fun row => row.take 4)
      else Except.error PyErr.valueError := by
  have hred : parse_ancestry_dna (some lines) =
      match rawRows lines with
      | [] => Except.ok []
      | r :: rs =>
          if (rs.all fun x => x.length == r.length) = true then
            if (rs.length == 0 || r.length == 1) = true then Except.error PyErr.indexError
            else Except.ok ((r :: rs).map fun row => row.take 4)
          else Except.error PyErr.valueError := rfl
  rw [hred, h]

/-- C8 amended: a line starting with `#` contributes no row (the `#`
comment marker discards the rest of the line, and blank lines are also
skipped); for a file with at least two surviving data rows, all of the
same field count `m` with `m` at least 2, the parser returns one record
per surviving row, in file order, projected to the first `min 4 m`
tab-separated fields (`row.take 4`); rows of non-uniform field count
instead abort parsing with `ValueError`, and a uniform single-column
file aborts with `IndexError` because `genfromtxt` squeezes the
`(n, 1)` table to one dimension before `data[:, :4]`. -/
theorem parse_ancestry_dna_spec :
    (∀ (rest : List Char) (lines : List (List Char)),
       rawRows (('#' :: rest) :: lines) = rawRows lines) ∧
    (∀ (lines : List (List Char)) (m : ℕ),
       2 ≤ (rawRows lines).length → 2 ≤ m →
       (∀ r ∈ rawRows lines, r.length = m) →
       parse_ancestry_dna (some lines) =
         .ok ((rawRows lines).map fun row => row.take 4)) ∧
    (∀ (lines : List (List Char)),
       2 ≤ (rawRows lines).length →
       (∀ r ∈ rawRows lines, r.length = 1) →
       parse_ancestry_dna (some lines) = .error .indexError) := by
  refine ⟨?_, ?_, ?_⟩
  · intro rest lines
    simp [rawRows, cleanLine, List.takeWhile_cons]
  · intro lines m hlen hm2 hm
    cases hrows : rawRows lines with
    | nil => rw [hrows] at hlen; simp at hlen
    | cons r rs =>
      have hm' : ∀ x ∈ r :: rs, x.length = m := hrows ▸ hm
      have hrm : r.length = m := hm' r (List.mem_cons_self r rs)
      have hall : (rs.all fun x => x.length == r.length) = true := by
        rw [List.all_eq_true]
        intro x hx
        have hxm : x.length = m := hm' x (List.mem_cons_of_mem r hx)
        simp [hxm, hrm]
      have hrs : rs.length ≠ 0 := by
        rw [hrows] at hlen
        simp only [List.length_cons] at hlen
        omega
      have hsq : (rs.length == 0 || r.length == 1) = false := by
        have hr1 : r.length ≠ 1 := by omega
        simp [hrs, hr1]
      rw [parse_some_cons lines r rs hrows, if_pos hall, hsq]
      rfl
  · intro lines hlen hm
    cases hrows : rawRows lines with
    | nil => rw [hrows] at hlen; simp at hlen
    | cons r rs =>
      have hm' : ∀ x ∈ r :: rs, x.length = 1 := hrows ▸ hm
      have hrm : r.length = 1 := hm' r (List.mem_cons_self r rs)
      have hall : (rs.all fun x => x.length == r.length) = true := by
        rw [List.all_eq_true]
        intro x hx
        have hxm : x.length = 1 := hm' x (List.mem_cons_of_mem r hx)
        simp [hxm, hrm]
      have hsq : (rs.length == 0 || r.length == 1) = true := by
        simp [hrm]
      rw [parse_some_cons lines r rs hrows, if_pos hall, hsq]
      rfl

/-- C8 witness: the spec's end-to-end scenario — a header comment and
three uniform 4-field rows parse to exactly the three records, in
order. -/
theorem parse_ancestry_dna_spec_witness :
    2 ≤ (rawRows sampleFile).length ∧ 2 ≤ 4 ∧
    (∀ r ∈ rawRows sampleFile, r.length = 4) ∧
    parse_ancestry_dna (some sampleFile) =
      .ok [["rs1".toList, "1".toList, "100".toList, "AG".toList],
           ["rs2".toList, "2".toList, "200".toList, "CT".toList],
           ["rs3".toList, "X".toList, "300".toList, "A".toList]] := by
  refine ⟨by decide, by decide, by decide, ?_⟩
  rw [parse_ancestry_dna_spec.2.1 sampleFile 4 (by decide) (by decide) (by decide)]
  rfl

/-- C9 counterexample: a readable file whose two non-comment rows
uniformly have only three tab-separated fields parses *successfully*
(yielding 3-field records), refuting "fails ... when some non-comment
row of the file has fewer than 4 tab-separated fields". -/
theorem parse_short_uniform_rows_ok :
    parse_ancestry_dna (some ["a\tb\tc".toList, "d\te\tf".toList]) =
      .ok [["a".toList, "b".toList, "c".toList],
           ["d".toList, "e".toList, "f".toList]] := by
  rfl

/-- C9 amended: the parser fails on an unreadable file (`OSError`, the
modelled `ParseError`), and on a readable file with at least two
surviving data rows it fails exactly when some later row's field count
differs from the first surviving row's field count (`ValueError`), or
the table is single-column (`genfromtxt` squeezes the `(n, 1)` result
to one dimension, so `data[:, :4]` raises `IndexError`) — a row with
fewer than 4 fields is not in itself an error. -/
theorem parse_error_iff :
    parse_ancestry_dna none = .error .osError ∧
    ∀ (lines : List (List Char)) (r₀ r₁ : List (List Char)) (rs : List (List (List Char))),
      rawRows lines = r₀ :: r₁ :: rs →
      ((∃ e, parse_ancestry_dna (some lines) = .error e) ↔
        (∃ x ∈ r₁ :: rs, x.length ≠ r₀.length) ∨ r₀.length = 1) := by
  constructor
  · rfl
  · intro lines r₀ r₁ rs hrows
    rw [parse_some_cons lines r₀ (r₁ :: rs) hrows]
    by_cases hall : ((r₁ :: rs).all fun x => x.length == r₀.length) = true
    · rw [if_pos hall]
      simp only [List.all_eq_true, beq_iff_eq] at hall
      by_cases h1 : r₀.length = 1
      · have hsq : ((r₁ :: rs).length == 0 || r₀.length == 1) = true := by
          simp [h1]
        rw [hsq]
        exact ⟨fun _ => Or.inr h1, fun _ => ⟨.indexError, rfl⟩⟩
      · have hsq : ((r₁ :: rs).length == 0 || r₀.length == 1) = false := by
          simp [h1]
        rw [hsq]
        constructor
        · rintro ⟨e, he⟩
          cases he
        · rintro (⟨x, hx, hne⟩ | h1')
          · exact absurd (hall x hx) hne
          · exact absurd h1' h1
    · rw [if_neg hall]
      simp only [List.all_eq_true, beq_iff_eq] at hall
      push_neg at hall
      obtain ⟨x, hx, hne⟩ := hall
      exact ⟨fun _ => Or.inl ⟨x, hx, hne⟩, fun _ => ⟨.valueError, rfl⟩⟩

/-- C9 witness: a two-row file whose rows have two and three fields has
mismatched column counts, so parsing it fails. -/
theorem parse_error_iff_witness :
    (∃ e, parse_ancestry_dna (some ["a\tb".toList, "c\td\te".toList]) = .error e) ↔
      (∃ x ∈ [["c".toList, "d".toList, "e".toList]],
        x.length ≠ (["a".toList, "b".toList] : List (List Char)).length) ∨
      (["a".toList, "b".toList] : List (List Char)).length = 1 :=
  parse_error_iff.2 ["a\tb".toList, "c\td\te".toList] ["a".toList, "b".toList]
    ["c".toList, "d".toList, "e".toList] [] (by decide)

/-! ## Helper lemmas about `mapM` over `Except` -/

theorem mapM_ok_length {α β : Type} (f : α → Except PyErr β) :
    ∀ (l : List α) (l' : List β), l.mapM f = .ok l' → l'.length = l.length := by
  intro l
  induction l with
  | nil =>
    intro l' h
    have h' : (Except.ok [] : Except PyErr (List β)) = Except.ok l' := h
    cases h'
    rfl
  | cons a t ih =>
    intro l' h
    rw [List.mapM_cons] at h
    cases hfa : f a with
    | error e =>
      rw [hfa] at h
      have h' : (Except.error e : Except PyErr (List β)) = Except.ok l' := h
      cases h'
    | ok b =>
      rw [hfa] at h
      cases hmt : t.mapM f with
      | error e =>
        rw [hmt] at h
        have h' : (Except.error e : Except PyErr (List β)) = Except.ok l' := h
        cases h'
      | ok bs =>
        rw [hmt] at h
        have h' : (Except.ok (b :: bs) : Except PyErr (List β)) = Except.ok l' := h
        cases h'
        simp [ih bs hmt]

theorem mapM_ok_getElem? {α β : Type} (f : α → Except PyErr β) :
    ∀ (l : List α) (l' : List β), l.mapM f = .ok l' →
      ∀ (i : ℕ) (a : α), l[i]? = some a → ∃ b, f a = .ok b ∧ l'[i]? = some b := by
  intro l
  induction l with
  | nil =>
    intro l' h i a ha
    simp at ha
  | cons x t ih =>
    intro l' h i a ha
    rw [List.mapM_cons] at h
    cases hfa : f x with
    | error e =>
      rw [hfa] at h
      have h' : (Except.error e : Except PyErr (List β)) = Except.ok l' := h
      cases h'
    | ok b =>
      rw [hfa] at h
      cases hmt : t.mapM f with
      | error e =>
        rw [hmt] at h
        have h' : (Except.error e : Except PyErr (List β)) = Except.ok l' := h
        cases h'
      | ok bs =>
        rw [hmt] at h
        have h' : (Except.ok (b :: bs) : Except PyErr (List β)) = Except.ok l' := h
        cases h'
        cases i with
        | zero =>
          simp only [List.getElem?_cons_zero, Option.some.injEq] at ha
          subst ha
          exact ⟨b, hfa, by simp⟩
        | succ j =>
          simp only [List.getElem?_cons_succ] at ha
          obtain ⟨b', hb', hbs⟩ := ih bs hmt j a ha
          exact ⟨b', hb', by simpa using hbs⟩

theorem mapM_ok_of_all_ok {β : Type} (f : ℕ → Except PyErr β) :
    ∀ l : List ℕ, (∀ j ∈ l, ∃ b, f j = .ok b) → ∃ bs, l.mapM f = .ok bs := by
  intro l
  induction l with
  | nil => exact fun _ => ⟨[], rfl⟩
  | cons a t ih =>
    intro h
    obtain ⟨b, hb⟩ := h a (List.mem_cons_self a t)
    obtain ⟨bs, hbs⟩ := ih fun j hj => h j (List.mem_cons_of_mem a hj)
    refine ⟨b :: bs, ?_⟩
    rw [List.mapM_cons, hb, hbs]
    rfl

theorem mapM_error_extend {β : Type} (f : ℕ → Except PyErr β) (err : PyErr) :
    ∀ l₁ l₂ : List ℕ, (∀ j ∈ l₁, ∃ b, f j = .ok b) → l₂.mapM f = .error err →
      (l₁ ++ l₂).mapM f = .error err := by
  intro l₁
  induction l₁ with
  | nil =>
    intro l₂ _ h2
    simpa using h2
  | cons a t ih =>
    intro l₂ h1 h2
    obtain ⟨b, hb⟩ := h1 a (List.mem_cons_self a t)
    rw [List.cons_append, List.mapM_cons, hb,
      ih l₂ (fun j hj => h1 j (List.mem_cons_of_mem a hj)) h2]
    rfl

theorem process_dna_batch_ok {batch : List (List (List Char))} {b1 b2 : List Char}
    (h : process_dna_batch batch = .ok (b1, b2)) :
    ∃ gs : List (List Char),
      (batch.mapM fun entry =>
        match entry[3]? with
        | some g => Except.ok g
        | none => Except.error PyErr.indexError) = .ok gs ∧
      b1 = gs.map (fun g => g.getD 0 'A') ∧ b2 = gs.map (fun g => g.getD 1 'T') := by
  unfold process_dna_batch at h
  cases hm : (batch.mapM fun entry =>
      match entry[3]? with
      | some g => Except.ok g
      | none => Except.error PyErr.indexError) with
  | error e =>
    rw [hm] at h
    have h' : (Except.error e : Except PyErr (List Char × List Char)) = .ok (b1, b2) := h
    cases h'
  | ok gs =>
    rw [hm] at h
    have h' : (Except.ok (gs.map fun g => g.getD 0 'A', gs.map fun g => g.getD 1 'T') :
        Except PyErr (List Char × List Char)) = .ok (b1, b2) := h
    injection h' with hpair
    injection hpair with h1 h2
    exact ⟨gs, rfl, h1.symm, h2.symm⟩

/-! ## Claims about the render pipelines -/

theorem generate_3d_helix_ok_lengths {dna_data : List (List (List Char))} {bp : ℕ}
    {s : Scene3D} (h : generate_3d_helix dna_data bp = .ok s) :
    s.backbone1.length = bp ∧ s.backbone2.length = bp ∧
    s.spheres1.length = min bp dna_data.length ∧
    s.spheres2.length = min bp dna_data.length ∧
    s.connectors.length = bp := by
  unfold generate_3d_helix at h
  split at h
  · cases h
  next bases1 bases2 hp =>
    split at h
    · cases h
    next colors1 hc1 =>
      split at h
      · cases h
      next colors2 hc2 =>
        obtain ⟨gs, hgs, hb1, hb2⟩ := process_dna_batch_ok hp
        have hglen : gs.length = min bp dna_data.length := by
          rw [mapM_ok_length _ _ _ hgs, List.length_take]
        have hb1len : bases1.length = min bp dna_data.length := by
          rw [hb1, List.length_map, hglen]
        have hb2len : bases2.length = min bp dna_data.length := by
          rw [hb2, List.length_map, hglen]
        have hc1len : colors1.length = min bp dna_data.length := by
          rw [mapM_ok_length _ _ _ hc1, hb1len]
        have hc2len : colors2.length = min bp dna_data.length := by
          rw [mapM_ok_length _ _ _ hc2, hb2len]
        cases h
        refine ⟨strandA_length bp, strandB_length bp, ?_, ?_, ?_⟩
        · show ((strandA bp).zip colors1).length = min bp dna_data.length
          rw [List.length_zip, strandA_length bp, hc1len]
          omega
        · show ((strandB bp).zip colors2).length = min bp dna_data.length
          rw [List.length_zip, strandB_length bp, hc2len]
          omega
        · simp

/-- C5 counterexample: one parsed record but `base_pairs = 2`.  The
offscreen 3-D pipeline succeeds, with a coordinate set (backbone) of
length 2 but only `min 2 1 = 1` sphere primitive per strand (and 2
connectors), refuting `len(HelixCoordinateSet) == primitives per strand
== min(base_pairs, records)`. -/
theorem pipeline_lengths_counterexample :
    (generate_3d_helix [["rs1".toList, "1".toList, "100".toList, "AG".toList]] 2).map
        (fun s => (s.backbone1.length, s.spheres1.length, s.spheres2.length,
          s.connectors.length))
      = .ok (2, 1, 1, 2) := by
  have hp : process_dna_batch
        ([["rs1".toList, "1".toList, "100".toList, "AG".toList]].take 2)
      = .ok (['A'], ['G']) := rfl
  have hc1 : lookupColors BASE_COLORS_3D ['A'] = .ok ["#FF0000"] := rfl
  have hc2 : lookupColors BASE_COLORS_3D ['G'] = .ok ["#FFFF00"] := rfl
  unfold generate_3d_helix
  simp only [hp, hc1, hc2, Except.map]
  simp [create_batch_spheres, List.length_zip, strandA_length, strandB_length]

/-- C5 amended: across the offscreen 3-D pipeline, the helix coordinate
set used for rendering has length `base_pairs` (not the minimum), the
number of sphere render primitives per strand equals
`min(base_pairs, number of records)`, the connector count equals
`base_pairs`, and the claimed three-way equality holds exactly in the
non-truncating case `base_pairs ≤ number of records`. -/
theorem pipeline_length_invariant (dna_data : List (List (List Char))) (bp : ℕ)
    (s : Scene3D) (h : generate_3d_helix dna_data bp = .ok s) :
    s.backbone1.length = bp ∧
    s.spheres1.length = min bp dna_data.length ∧
    s.spheres2.length = min bp dna_data.length ∧
    s.connectors.length = bp ∧
    (bp ≤ dna_data.length → s.backbone1.length = s.spheres1.length) := by
  obtain ⟨h1, h2, h3, h4, h5⟩ := generate_3d_helix_ok_lengths h
  refine ⟨h1, h3, h4, h5, fun hle => ?_⟩
  rw [h1, h3]
  omega

/-- C5 witness: the amended theorem at an empty batch and
`base_pairs = 0`. -/
theorem pipeline_length_invariant_witness :
    generate_3d_helix [] 0 = .ok ⟨[], [], [], [], []⟩ ∧
    (Scene3D.mk [] [] [] [] []).backbone1.length = 0 ∧
    (Scene3D.mk [] [] [] [] []).spheres1.length =
      min 0 ([] : List (List (List Char))).length := by
  have hgen : generate_3d_helix [] 0 = .ok ⟨[], [], [], [], []⟩ := rfl
  have hall := pipeline_length_invariant [] 0 ⟨[], [], [], [], []⟩ hgen
  exact ⟨hgen, hall.1, hall.2.1⟩

/-- C10.  The interactive-viewer path indexes `dna_data[i][3][0]`
directly on strand A with no short-genotype fallback: whenever the
record at some in-range index `i` has an empty genotype string (all
earlier iterations succeeding), `generate_3dmol_helix` fails with
`IndexError`, whereas the batch resolver substitutes the default `'A'`
at that very index. -/
theorem viewer_empty_genotype_indexerror (dna_data : List (List (List Char)))
    (bp i : ℕ) (hi : i < bp)
    (hok : ∀ j, j < i → ∃ sp, sphere3dmol dna_data bp j = .ok sp)
    (entry : List (List Char)) (he : dna_data[i]? = some entry)
    (hg : entry[3]? = some []) :
    generate_3dmol_helix dna_data bp = .error .indexError ∧
    ∀ b1 b2, process_dna_batch dna_data = .ok (b1, b2) → b1[i]? = some 'A' := by
  constructor
  · have herr : sphere3dmol dna_data bp i = .error .indexError := by
      simp only [sphere3dmol, he, hg, List.getElem?_nil]
    have hsplit : List.range bp = List.range i ++ (i :: List.range' (i + 1) (bp - i - 1)) := by
      rw [List.range_eq_range']
      conv_lhs => rw [show bp = (bp - i) + i by omega]
      rw [← List.range'_append_1 0 i (bp - i), Nat.zero_add,
        show bp - i = (bp - i - 1) + 1 by omega, List.range'_succ,
        ← List.range_eq_range']
      simp
    unfold generate_3dmol_helix
    rw [hsplit]
    apply mapM_error_extend
    · intro j hj
      exact hok j (List.mem_range.mp hj)
    · rw [List.mapM_cons, herr]
      rfl
  · intro b1 b2 hpb
    obtain ⟨gs, hgs, hb1, _⟩ := process_dna_batch_ok hpb
    obtain ⟨g, hg', hgsi⟩ := mapM_ok_getElem? _ dna_data gs hgs i entry he
    simp only [hg] at hg'
    injection hg' with hgeq
    subst hgeq
    rw [hb1, List.getElem?_map, hgsi]
    rfl

/-- C10 witness: a single record with an empty genotype makes the
interactive-viewer path fail with `IndexError` at `base_pairs = 1`. -/
theorem viewer_empty_genotype_indexerror_witness :
    generate_3dmol_helix [["rs4".toList, "4".toList, "1".toList, []]] 1 =
      .error .indexError :=
  (viewer_empty_genotype_indexerror [["rs4".toList, "4".toList, "1".toList, []]] 1 0
    (by norm_num) (fun j hj => absurd hj (Nat.not_lt_zero j))
    ["rs4".toList, "4".toList, "1".toList, []] rfl rfl).1

end HelixDrawer
